import Mathlib

/-!
Verification of the Innov8 AI-tutoring backend core
(`src/gemini_chat_backend.py` and `src/ai_backend/app/services/llm_service.py`).

Python strings are modelled as `List Char` (`Str`), Python ints as `Int`/`Nat`,
exceptions as `Except`.  The external LLM collaborator is an oracle parameter;
each theorem quantifies over all oracles, so prompt-assembly text content is
immaterial and is folded into the oracle's input (it receives the full session
state and the event being processed).  Wall-clock timestamps are omitted from
the records: no verified property mentions them.
-/

namespace Innov8

/-- Python `str` modelled as a list of characters. -/
abbrev Str := List Char

/-- Coerce a Lean string literal into the model type. -/
def str (s : String) : Str := s.toList

/-! ### Python string primitives -/

/-- `pat` is a prefix of `hay` (helper for substring search). -/
def startsWithL : Str → Str → Bool
  | _, [] => true
  | [], _ :: _ => false
  | a :: as, b :: bs => a = b && startsWithL as bs

/-- Index (from `i`) of the first occurrence of `pat`, scanning `hay`. -/
def findFromAux (pat : Str) : Str → Nat → Option Nat
  | [], i => if startsWithL [] pat then some i else none
  | c :: t, i => if startsWithL (c :: t) pat then some i else findFromAux pat t (i + 1)

/-- Python `hay.find(pat)`: `some index` of first occurrence, `none` for `-1`. -/
def pyFind (hay pat : Str) : Option Nat := findFromAux pat hay 0

/-- Python `pat in hay` (substring containment). -/
def containsSub (hay pat : Str) : Bool := (pyFind hay pat).isSome

/-- Python whitespace as used by `str.strip()` (ASCII subset). -/
def pyIsSpace (c : Char) : Bool :=
  c = ' ' || c = '\t' || c = '\n' || c = '\r' || c = '\x0b' || c = '\x0c'

/-- Python `s.strip()`. -/
def pyStrip (s : Str) : Str :=
  ((s.dropWhile pyIsSpace).reverse.dropWhile pyIsSpace).reverse

/-- Python `s.lower()` (ASCII). -/
def pyLower (s : Str) : Str := s.map Char.toLower

/-- Worker for `pySplitlines`; `cur` is the current line, reversed. -/
def splitlinesGo : Str → Str → List Str
  | [], cur => [cur.reverse]
  | '\n' :: [], cur => [cur.reverse]
  | '\n' :: c :: rest, cur => cur.reverse :: splitlinesGo (c :: rest) []
  | c :: rest, cur =>
    if c = '\n' then [] else  -- unreachable: '\n' handled above; keeps match total
    splitlinesGo rest (c :: cur)

/-- Python `s.splitlines()` restricted to LF newlines (all inputs the claims
touch are LF-only): a trailing newline produces no empty final line and the
empty string produces no lines. -/
def pySplitlines : Str → List Str
  | [] => []
  | c :: rest => splitlinesGo (c :: rest) []

/-- Python `s.split(":", 1)[1]`: everything after the first colon ( `[]` when
no colon exists; callers guard on `":" in s` first). -/
def afterFirstColon : Str → Str
  | [] => []
  | ':' :: rest => rest
  | c :: rest =>
    if c = ':' then [] else  -- unreachable: ':' handled above; keeps match total
    afterFirstColon rest

/-- Python `int(digits)` on a string of decimal digits. -/
def digitsToNat (s : Str) : Nat :=
  s.foldl (fun a c => a * 10 + (c.toNat - '0'.toNat)) 0

/-! ### Memory extractor (`gemini_chat_backend.py` lines 339–394) -/

/-- `_map_help_label_to_level`: keyword containment on the stripped, lowered
label, checked in precedence order; every fall-through path returns 0. -/
def map_help_label_to_level (label : Str) : Int :=
  let norm := pyLower (pyStrip label)
  if norm = [] then 0
  else if containsSub norm (str "direction") then 3
  else if containsSub norm (str "guide") then 2
  else if containsSub norm (str "nudge") then 1
  else if containsSub norm (str "self") || containsSub norm (str "sufficient")
       || containsSub norm (str "no hint") then 0
  else 0

/-- One iteration of the line loop inside
`_extract_memory_from_snapshot_section`: the two `if` tests are independent
(not `elif`), and a later matching line overwrites an earlier value. -/
def scanSnapshotLine (st : Option Int × Option Int) (line : Str) : Option Int × Option Int :=
  let l := pyStrip line
  if l = [] then st
  else
    let st1 :=
      if containsSub (pyLower l) (str "help tier") && containsSub l (str ":") then
        (some (map_help_label_to_level (pyStrip (afterFirstColon l))), st.2)
      else st
    if containsSub (pyLower l) (str "struggle score") && containsSub l (str ":") then
      let digits := (afterFirstColon l).filter Char.isDigit
      if digits ≠ [] then (st1.1, some (max 0 (min 100 (digitsToNat digits : Int))))
      else st1
    else st1

/-- `_extract_memory_from_snapshot_section`: locate the first
`### Interview Snapshot` marker, cut the section at the next `### `, and scan
its lines for help tier and struggle score. -/
def extract_memory_from_snapshot_section (text : Str) : Option Int × Option Int :=
  if text = [] then (none, none)
  else
    let marker := str "### Interview Snapshot"
    match pyFind text marker with
    | none => (none, none)
    | some idx =>
      let tl := text.drop (idx + marker.length)
      let sect :=
        match pyFind tl (str "### ") with
        | none => tl
        | some endIdx => tl.take endIdx
      (pySplitlines sect).foldl scanSnapshotLine (none, none)

/-! ### Sessions, events, priority queue (`gemini_chat_backend.py` lines 52–106) -/

/-- `PRIORITY.get(etype, 0)`: the fixed priority table with default 0. -/
def PRIORITY_get (etype : String) : Nat :=
  if etype = "USER_SPEECH" then 3
  else if etype = "CODE_RUN" then 2
  else if etype = "SLM" then 1
  else 0

/-- A normalized queued event (`_enqueue_event`'s dict shape; the wall-clock
timestamp field is omitted). -/
structure Event where
  priority : Nat
  etype : String
  userMessage : Option Str
  code : Option Str
  runOutput : Option Str
  runError : Option Str
deriving DecidableEq, Repr

/-- The JSON body of an enqueue request (fields read by `_enqueue_event`);
`type = none` covers both a missing key and an explicit `null`. -/
structure RawEvent where
  type : Option String
  userMessage : Option Str
  code : Option Str
  output : Option Str
  error : Option Str
deriving DecidableEq, Repr

/-- A chat message; `role` is `false` for user, `true` for assistant
(timestamp omitted). -/
structure Message where
  isAssistant : Bool
  content : Str
deriving DecidableEq, Repr

/-- The per-session record created by `_get_session` (`question_json` payload
kept opaque as text). -/
structure Session where
  messages : List Message
  question_json : Option Str
  help_level : Int
  struggle_score : Int
  queue : List Event
  processing : Bool
  outbox : List Message
deriving DecidableEq, Repr

/-- The fresh session `_get_session` creates for an unseen id. -/
def freshSession : Session :=
  { messages := [], question_json := none, help_level := 0, struggle_score := 0,
    queue := [], processing := false, outbox := [] }

/-- `_append_assistant_message`: append the same message to `messages` and
`outbox`. -/
def append_assistant_message (s : Session) (text : Str) : Session :=
  let msg : Message := { isAssistant := true, content := text }
  { s with messages := s.messages ++ [msg], outbox := s.outbox ++ [msg] }

/-- `_enqueue_event`: `event.get('type') or 'SLM'` (Python falsiness: a missing,
`None` or empty type becomes `'SLM'`), priority from the table with default 0,
normalized shape appended to the queue. -/
def enqueue_event (s : Session) (event : RawEvent) : Session :=
  let etype := match event.type with
    | none => "SLM"
    | some t => if t = "" then "SLM" else t
  let priority := PRIORITY_get etype
  { s with queue := s.queue ++
      [{ priority := priority, etype := etype, userMessage := event.userMessage,
         code := event.code, runOutput := event.output, runError := event.error }] }

/-- Stable insert for descending-priority insertion sort: the inserted (earlier)
element passes only strictly higher priorities, so it lands before any
equal-priority element already in place. -/
def insertDesc (e : Event) : List Event → List Event
  | [] => [e]
  | x :: xs => if e.priority < x.priority then x :: insertDesc e xs else e :: x :: xs

/-- `session['queue'].sort(key=lambda e: e['priority'], reverse=True)`:
Python's `list.sort` is stable; modelled as stable insertion sort, which
computes the identical ordering. -/
def sortDesc : List Event → List Event
  | [] => []
  | x :: xs => insertDesc x (sortDesc xs)

@[simp] theorem length_insertDesc (e : Event) (l : List Event) :
    (insertDesc e l).length = l.length + 1 := by
  induction l with
  | nil => rfl
  | cons x xs ih => simp only [insertDesc]; split <;> simp [ih]

@[simp] theorem length_sortDesc (l : List Event) :
    (sortDesc l).length = l.length := by
  induction l with
  | nil => rfl
  | cons x xs ih => simp [sortDesc, ih]

/-- `_dequeue_highest_priority`: `None` on an empty queue, else sort the queue
by priority descending (stable) and pop the head.  `sortDesc` maps `[]` to `[]`
and non-empty lists to non-empty lists, so the branches coincide with the
source's emptiness test. -/
def dequeue_highest_priority (s : Session) : Option (Event × Session) :=
  match sortDesc s.queue with
  | [] => none
  | e :: rest => some (e, { s with queue := rest })

/-! ### Drain loop (`_process_queue`, lines 156–185) -/

/-- The LLM collaborator: receives the full session state and the event being
processed (the source builds a prompt from exactly these), returns either the
response text or the text of a raised exception. -/
abbrev Oracle := Session → Event → Except Str Str

/-- The memory-update step shared verbatim by `_process_queue` (lines 174–181)
and the `/chat` endpoint (lines 690–697): parse the snapshot section and apply
each recovered value clamped, leaving a field untouched when absent. -/
def update_memory_from_snapshot (s : Session) (text : Str) : Session :=
  let parsed := extract_memory_from_snapshot_section text
  let s1 := match parsed.1 with
    | some h => { s with help_level := max 0 (min 3 h) }
    | none => s
  match parsed.2 with
  | some v => { s1 with struggle_score := max 0 (min 100 v) }
  | none => s1

/-- The synthetic assistant text produced when the LLM raises:
`f"(internal error processing {event.get('type')}) {e}"`. -/
def internalErrorText (etype : String) (excText : Str) : Str :=
  str "(internal error processing " ++ etype.toList ++ str ") " ++ excText

/-- One iteration of the drain loop body: call the LLM (catching a failure into
the synthetic message), update memory from the snapshot section, append the
response to `messages` and `outbox`. -/
def processOne (oracle : Oracle) (s : Session) (e : Event) : Session :=
  let response_text_raw : Str :=
    match oracle s e with
    | .ok t => t
    | .error exc => internalErrorText e.etype exc
  let s1 := update_memory_from_snapshot s response_text_raw
  append_assistant_message s1 response_text_raw

@[simp] theorem queue_update_memory (s : Session) (t : Str) :
    (update_memory_from_snapshot s t).queue = s.queue := by
  unfold update_memory_from_snapshot
  cases h1 : (extract_memory_from_snapshot_section t).1 <;>
    cases h2 : (extract_memory_from_snapshot_section t).2 <;> simp [h1, h2]

@[simp] theorem queue_processOne (oracle : Oracle) (s : Session) (e : Event) :
    (processOne oracle s e).queue = s.queue := by
  unfold processOne append_assistant_message
  simp

theorem dequeue_some_queue_length {s : Session} {e : Event} {s' : Session}
    (h : dequeue_highest_priority s = some (e, s')) :
    s'.queue.length + 1 = s.queue.length := by
  unfold dequeue_highest_priority at h
  cases hs : sortDesc s.queue with
  | nil => rw [hs] at h; exact absurd h (by simp)
  | cons x rest =>
    rw [hs] at h
    have hq : s'.queue = rest := by
      have := (Option.some.injEq _ _).mp h
      cases this; rfl
    have : (sortDesc s.queue).length = s.queue.length := length_sortDesc _
    rw [hs] at this
    simp [hq] at this ⊢
    omega

/-- The `while True` drain loop: dequeue the highest-priority event and process
it until the queue is empty. -/
def process_queue_loop (oracle : Oracle) (s : Session) : Session :=
  match h : dequeue_highest_priority s with
  | none => s
  | some (e, s') => process_queue_loop oracle (processOne oracle s' e)
termination_by s.queue.length
decreasing_by
  simp only [queue_processOne]
  have := dequeue_some_queue_length h
  omega

/-- `_process_queue`: return immediately if the busy flag is set, else set it,
drain, and clear it (`finally`). -/
def process_queue (oracle : Oracle) (s : Session) : Session :=
  if s.processing then s
  else
    let s1 := process_queue_loop oracle { s with processing := true }
    { s1 with processing := false }

/-- The order in which `_process_queue` consumes events: repeated
`_dequeue_highest_priority`. -/
def drainOrder (s : Session) : List Event :=
  match h : dequeue_highest_priority s with
  | none => []
  | some (e, s') => e :: drainOrder s'
termination_by s.queue.length
decreasing_by
  have := dequeue_some_queue_length h
  omega

/-! ### Outbox poll and chat endpoint (lines 609–773) -/

/-- The state change and response of `/chat/events/poll` for an existing
session: read the outbox, clear it, report the previous contents and their
count. -/
def chat_events_poll (s : Session) : (Nat × List Message) × Session :=
  ((s.outbox.length, s.outbox), { s with outbox := [] })

/-- The session-mutating core of the `/chat` endpoint for a non-empty user
message: append the user message, invoke the LLM on the full context, update
memory from the snapshot section with the same clamped rule as the drain loop,
append the assistant response.  Input validation, question-JSON bookkeeping,
logging and response rendering are omitted (no claim touches them).  The
`/chat` LLM call is not guarded by a local try/except, so the oracle here
returns plain text. -/
def chat_step (oracleText : Session → Str → Str) (s : Session) (userMessage : Str) :
    Session :=
  let s1 := { s with messages := s.messages ++ [{ isAssistant := false, content := userMessage }] }
  let response_text_raw := oracleText s1 userMessage
  let s2 := update_memory_from_snapshot s1 response_text_raw
  { s2 with messages := s2.messages ++ [{ isAssistant := true, content := response_text_raw }] }

/-! ### Patch reconstructor (`llm_service.py` lines 106–119)

`_apply_patch` delegates parsing to the external `diff_match_patch` library.
That library's `patch_fromText` raises `ValueError` when a hunk header line
does not match `^@@ -(\d+),?(\d*) \+(\d+),?(\d*) @@$` or when a body line
starts with a character other than `+`, `-`, a space or `@`; `patch_apply`
does not raise on parsed patches.  The parse-and-validate control flow is
modelled below (hunk payloads are kept as their raw validated lines, and
`patch_apply` is an opaque collaborator parameter, mirroring §6's treatment of
external collaborators); what matters for the verified claim is which inputs
raise and that `_apply_patch` itself contains no try/except around the parse. -/

/-- Python `s.split(sep)` for a one-character separator. -/
def pySplit (sep : Char) (s : Str) : List Str := List.splitOn sep s

/-- Split a leading run of decimal digits from a string. -/
def takeDigits : Str → (Str × Str)
  | [] => ([], [])
  | c :: t =>
    if c.isDigit then
      let (d, r) := takeDigits t
      (c :: d, r)
    else ([], c :: t)

/-- `re.match("^@@ -(\\d+),?(\\d*) \\+(\\d+),?(\\d*) @@$", line)` succeeds. -/
def matchHunkHeader (l : Str) : Bool :=
  match l with
  | '@' :: '@' :: ' ' :: '-' :: rest =>
    let (d1, r1) := takeDigits rest
    if d1 = [] then false
    else
      let r2 := match r1 with | ',' :: t => t | other => other
      let (_, r3) := takeDigits r2
      match r3 with
      | ' ' :: '+' :: r4 =>
        let (d3, r5) := takeDigits r4
        if d3 = [] then false
        else
          let r6 := match r5 with | ',' :: t => t | other => other
          let (_, r7) := takeDigits r6
          r7 = str " @@"
      | _ => false
  | _ => false

/-- Modelled from the external diff_match_patch library: the line loop of
`patch_fromText`.  The flag is `true` when the next line must be a hunk
header; body lines starting with `+`, `-` or a space are consumed, an empty
line is skipped, a line starting with `@` re-matches as the next header, and
any other line raises `ValueError("Invalid patch mode: ...")`; a failed header
match raises `ValueError("Invalid patch string: ...")`. -/
def fromTextGo : Bool → List Str → Except Str (List Str)
  | _, [] => .ok []
  | true, l :: rest =>
    if matchHunkHeader l then
      match fromTextGo false rest with
      | .error e => .error e
      | .ok ls => .ok (l :: ls)
    else .error (str "Invalid patch string: " ++ l)
  | false, l :: rest =>
    match l with
    | [] => fromTextGo false rest
    | '@' :: _ =>
      if matchHunkHeader l then
        match fromTextGo false rest with
        | .error e => .error e
        | .ok ls => .ok (l :: ls)
      else .error (str "Invalid patch string: " ++ l)
    | '+' :: _ => fromTextGo false rest
    | '-' :: _ => fromTextGo false rest
    | ' ' :: _ => fromTextGo false rest
    | _ :: _ => .error (str "Invalid patch mode: " ++ l)

/-- Modelled from the external diff_match_patch library: `patch_fromText`
returns `[]` on empty input, else splits on `"\n"` and runs the header/body
loop; `.error` is a raised `ValueError`. -/
def patch_fromText (textline : Str) : Except Str (List Str) :=
  if textline = [] then .ok []
  else fromTextGo true (pySplit '\n' textline)

/-- `_apply_patch` (`llm_service.py` lines 112–119): when `_safe_get_dmp`
returns `None` (`dmpAvailable = false`), fall back to the previous code;
otherwise parse the patch text and apply it.  The library's `patch_apply`
(returning `(new_text, results)`) is the opaque parameter `patchApply`.
The source wraps neither call in a try/except, so a parse `ValueError`
propagates to the caller — hence the `Except` result. -/
def apply_patch (dmpAvailable : Bool) (patchApply : List Str → Str → Str × List Bool)
    (previous_code patch_text : Str) : Except Str Str :=
  if dmpAvailable = false then .ok previous_code
  else
    match patch_fromText patch_text with
    | .error e => .error e
    | .ok patches => .ok (patchApply patches previous_code).1

/-! ### Invariants and concrete fixtures -/

/-- The bounded-memory invariant of §8: `helpLevel ∈ [0,3]`,
`struggleScore ∈ [0,100]`. -/
def memInvariant (s : Session) : Prop :=
  0 ≤ s.help_level ∧ s.help_level ≤ 3 ∧ 0 ≤ s.struggle_score ∧ s.struggle_score ≤ 100

instance (s : Session) : Decidable (memInvariant s) := by
  unfold memInvariant; infer_instance

/-- The snapshot marker string. -/
def snapshotMarker : Str := str "### Interview Snapshot"

/-- The exact snapshot section of §8's extractor test vector. -/
def c6Block : Str :=
  str "### Interview Snapshot\n- Help tier: Guide\n- Struggle score: 57\n### Next Steps"

/-- A text that contains `c6Block` but whose first marker occurrence starts an
earlier snapshot section with different values. -/
def c6DoubleMarker : Str :=
  str "### Interview Snapshot\n- Help tier: Nudge\n- Struggle score: 3\n" ++ c6Block

/-- A snapshot section whose help-tier line is malformed (no colon) but whose
struggle-score line is well-formed. -/
def malformedHelpText : Str :=
  str "### Interview Snapshot\n- Help tier Guide\n- Struggle score: 57\n### Next Steps"

/-- A fixed successful LLM collaborator. -/
def oracle0 : Oracle := fun _ _ => .ok (str "All good, keep going!")

/-- An LLM collaborator that raises on every call. -/
def oracleFail : Oracle := fun _ _ => .error (str "boom")

/-- A concrete normalized SLM event. -/
def ev0 : Event :=
  { priority := 1, etype := "SLM", userMessage := none, code := none,
    runOutput := none, runError := none }

/-- An enqueue request with no type field. -/
def noTypeReq : RawEvent :=
  { type := none, userMessage := none, code := none, output := none, error := none }

/-! ### Properties of the stable descending sort -/

theorem mem_insertDesc {y e : Event} {l : List Event} :
    y ∈ insertDesc e l ↔ y = e ∨ y ∈ l := by
  induction l with
  | nil => simp [insertDesc]
  | cons x xs ih =>
    simp only [insertDesc]
    split
    · rw [List.mem_cons, ih, List.mem_cons]
      tauto
    · simp only [List.mem_cons]

theorem pairwise_insertDesc {e : Event} {l : List Event}
    (h : List.Pairwise (fun a b : Event => b.priority ≤ a.priority) l) :
    List.Pairwise (fun a b : Event => b.priority ≤ a.priority) (insertDesc e l) := by
  induction l with
  | nil => simp [insertDesc]
  | cons x xs ih =>
    rcases List.pairwise_cons.mp h with ⟨hx, hxs⟩
    simp only [insertDesc]
    split
    · rename_i hlt
      refine List.pairwise_cons.mpr ⟨?_, ih hxs⟩
      intro y hy
      rcases mem_insertDesc.mp hy with rfl | hy'
      · exact Nat.le_of_lt hlt
      · exact hx y hy'
    · rename_i hge
      refine List.pairwise_cons.mpr ⟨?_, h⟩
      intro y hy
      rcases List.mem_cons.mp hy with rfl | hy'
      · omega
      · exact le_trans (hx y hy') (by omega)

theorem pairwise_sortDesc (l : List Event) :
    List.Pairwise (fun a b : Event => b.priority ≤ a.priority) (sortDesc l) := by
  induction l with
  | nil => simp [sortDesc]
  | cons x xs ih =>
    simp only [sortDesc]
    exact pairwise_insertDesc ih

theorem filter_insertDesc (e : Event) (l : List Event) (p : Nat) :
    (insertDesc e l).filter (fun x => x.priority == p)
      = if e.priority = p then e :: l.filter (fun x => x.priority == p)
        else l.filter (fun x => x.priority == p) := by
  induction l with
  | nil => simp only [insertDesc, List.filter]; split <;> simp_all
  | cons x xs ih =>
    simp only [insertDesc]
    split
    · rename_i hlt
      by_cases hep : e.priority = p
      · have hxp : ¬ x.priority = p := by omega
        simp [List.filter_cons, hep, hxp, ih]
      · simp [List.filter_cons, hep, ih]
    · by_cases hep : e.priority = p <;> simp [List.filter_cons, hep]

theorem filter_sortDesc (l : List Event) (p : Nat) :
    (sortDesc l).filter (fun x => x.priority == p)
      = l.filter (fun x => x.priority == p) := by
  induction l with
  | nil => rfl
  | cons x xs ih =>
    simp only [sortDesc, filter_insertDesc, List.filter_cons]
    by_cases hxp : x.priority = p <;> simp [hxp, ih]

theorem perm_insertDesc (e : Event) (l : List Event) :
    List.Perm (insertDesc e l) (e :: l) := by
  induction l with
  | nil => simp [insertDesc]
  | cons x xs ih =>
    simp only [insertDesc]
    split
    · exact ((ih.cons x).trans (List.Perm.swap e x xs))
    · exact List.Perm.refl _

theorem perm_sortDesc (l : List Event) : List.Perm (sortDesc l) l := by
  induction l with
  | nil => exact List.Perm.refl _
  | cons x xs ih =>
    simp only [sortDesc]
    exact (perm_insertDesc x (sortDesc xs)).trans (ih.cons x)

theorem sortDesc_eq_self {l : List Event}
    (h : List.Pairwise (fun a b : Event => b.priority ≤ a.priority) l) :
    sortDesc l = l := by
  induction l with
  | nil => rfl
  | cons x xs ih =>
    rcases List.pairwise_cons.mp h with ⟨hx, hxs⟩
    simp only [sortDesc, ih hxs]
    cases xs with
    | nil => rfl
    | cons y ys =>
      have hyx : y.priority ≤ x.priority := hx y (by simp)
      simp [insertDesc, show ¬ x.priority < y.priority by omega]

theorem dequeue_eq_some {s : Session} {e : Event} {s' : Session}
    (h : dequeue_highest_priority s = some (e, s')) :
    sortDesc s.queue = e :: s'.queue ∧ s'.messages = s.messages ∧
    s'.outbox = s.outbox ∧ s'.help_level = s.help_level ∧
    s'.struggle_score = s.struggle_score ∧ s'.processing = s.processing := by
  unfold dequeue_highest_priority at h
  cases hs : sortDesc s.queue with
  | nil => rw [hs] at h; cases h
  | cons x rest =>
    rw [hs] at h
    simp only [Option.some.injEq, Prod.mk.injEq] at h
    obtain ⟨rfl, rfl⟩ := h
    simp [hs]

theorem drainOrder_eq_sortDesc (s : Session) : drainOrder s = sortDesc s.queue := by
  generalize hn : s.queue.length = n
  induction n using Nat.strong_induction_on generalizing s with
  | _ n ih =>
    rw [drainOrder.eq_def]
    split
    · rename_i h
      unfold dequeue_highest_priority at h
      have hq : s.queue = [] := by
        cases hs : sortDesc s.queue with
        | nil =>
          have := length_sortDesc s.queue
          rw [hs] at this
          simpa using this.symm
        | cons x rest => rw [hs] at h; simp at h
      simp [hq, sortDesc]
    · rename_i e s' h
      obtain ⟨hq, -, -, -, -, -⟩ := dequeue_eq_some h
      have hlen : s'.queue.length < n := by
        have := length_sortDesc s.queue
        rw [hq] at this
        simp at this
        omega
      have hrest : List.Pairwise (fun a b : Event => b.priority ≤ a.priority) s'.queue := by
        have := pairwise_sortDesc s.queue
        rw [hq] at this
        exact this.of_cons
      rw [ih s'.queue.length hlen s' rfl, sortDesc_eq_self hrest, hq]

/-! ### Field bookkeeping for the drain loop -/

theorem dequeue_eq_none {s : Session} (h : dequeue_highest_priority s = none) :
    s.queue = [] := by
  unfold dequeue_highest_priority at h
  cases hs : sortDesc s.queue with
  | nil =>
    have := length_sortDesc s.queue
    rw [hs] at this
    simpa using this.symm
  | cons x rest => rw [hs] at h; simp at h

@[simp] theorem update_memory_messages (s : Session) (t : Str) :
    (update_memory_from_snapshot s t).messages = s.messages := by
  unfold update_memory_from_snapshot
  cases h1 : (extract_memory_from_snapshot_section t).1 <;>
    cases h2 : (extract_memory_from_snapshot_section t).2 <;> simp [h1, h2]

@[simp] theorem update_memory_outbox (s : Session) (t : Str) :
    (update_memory_from_snapshot s t).outbox = s.outbox := by
  unfold update_memory_from_snapshot
  cases h1 : (extract_memory_from_snapshot_section t).1 <;>
    cases h2 : (extract_memory_from_snapshot_section t).2 <;> simp [h1, h2]

@[simp] theorem update_memory_processing (s : Session) (t : Str) :
    (update_memory_from_snapshot s t).processing = s.processing := by
  unfold update_memory_from_snapshot
  cases h1 : (extract_memory_from_snapshot_section t).1 <;>
    cases h2 : (extract_memory_from_snapshot_section t).2 <;> simp [h1, h2]

theorem update_memory_help_eq (s : Session) (t : Str) :
    (update_memory_from_snapshot s t).help_level
      = match (extract_memory_from_snapshot_section t).1 with
        | some v => max 0 (min 3 v)
        | none => s.help_level := by
  unfold update_memory_from_snapshot
  cases h1 : (extract_memory_from_snapshot_section t).1 <;>
    cases h2 : (extract_memory_from_snapshot_section t).2 <;> simp [h1, h2]

theorem update_memory_struggle_eq (s : Session) (t : Str) :
    (update_memory_from_snapshot s t).struggle_score
      = match (extract_memory_from_snapshot_section t).2 with
        | some v => max 0 (min 100 v)
        | none => s.struggle_score := by
  unfold update_memory_from_snapshot
  cases h1 : (extract_memory_from_snapshot_section t).1 <;>
    cases h2 : (extract_memory_from_snapshot_section t).2 <;> simp [h1, h2]

theorem memInvariant_update (s : Session) (t : Str) (h : memInvariant s) :
    memInvariant (update_memory_from_snapshot s t) := by
  obtain ⟨ha, hb, hc, hd⟩ := h
  unfold memInvariant
  rw [update_memory_help_eq, update_memory_struggle_eq]
  cases (extract_memory_from_snapshot_section t).1 <;>
    cases (extract_memory_from_snapshot_section t).2 <;>
    dsimp only <;>
    refine ⟨?_, ?_, ?_, ?_⟩ <;>
    first
      | omega
      | exact le_sup_left
      | exact sup_le (by norm_num) inf_le_left

theorem processOne_messages_outbox (o : Oracle) (s : Session) (e : Event) :
    ∃ m : Message, m.isAssistant = true
      ∧ (processOne o s e).messages = s.messages ++ [m]
      ∧ (processOne o s e).outbox = s.outbox ++ [m] := by
  refine ⟨{ isAssistant := true,
            content := match o s e with
              | .ok t => t
              | .error exc => internalErrorText e.etype exc }, rfl, ?_, ?_⟩ <;>
    (unfold processOne append_assistant_message; simp)

@[simp] theorem processOne_processing (o : Oracle) (s : Session) (e : Event) :
    (processOne o s e).processing = s.processing := by
  unfold processOne append_assistant_message
  simp

theorem processOne_memInvariant (o : Oracle) (s : Session) (e : Event)
    (h : memInvariant s) : memInvariant (processOne o s e) := by
  unfold processOne append_assistant_message
  have := memInvariant_update s
    (match o s e with
      | .ok t => t
      | .error exc => internalErrorText e.etype exc) h
  unfold memInvariant at *
  simpa using this

theorem memInvariant_of_dequeue {s : Session} {e : Event} {s' : Session}
    (h : dequeue_highest_priority s = some (e, s')) (hi : memInvariant s) :
    memInvariant s' := by
  obtain ⟨-, -, -, hh, hs_, -⟩ := dequeue_eq_some h
  unfold memInvariant at *
  rw [hh, hs_]
  exact hi

/-- Everything one drain pass guarantees: the loop empties the queue, appends
the same new messages (one per queued event) to `messages` and `outbox`,
leaves the busy flag as it found it, and preserves the memory bounds. -/
theorem process_queue_loop_spec (o : Oracle) (s : Session) :
    ∃ new : List Message,
      (process_queue_loop o s).messages = s.messages ++ new
      ∧ (process_queue_loop o s).outbox = s.outbox ++ new
      ∧ new.length = s.queue.length
      ∧ (process_queue_loop o s).queue = []
      ∧ (process_queue_loop o s).processing = s.processing
      ∧ (memInvariant s → memInvariant (process_queue_loop o s)) := by
  generalize hn : s.queue.length = n
  induction n using Nat.strong_induction_on generalizing s with
  | _ n ih =>
    rw [process_queue_loop.eq_def]
    split
    · rename_i h
      have hq := dequeue_eq_none h
      refine ⟨[], by simp, by simp, ?_, hq, rfl, fun hi => hi⟩
      rw [hq] at hn
      simpa using hn
    · rename_i e s' h
      obtain ⟨hq, hm, hob, hh, hsc, hp⟩ := dequeue_eq_some h
      obtain ⟨m, hma, hm2, hob2⟩ := processOne_messages_outbox o s' e
      have hlens : s'.queue.length + 1 = n := by
        have := length_sortDesc s.queue
        rw [hq] at this
        simp at this
        omega
      have hlt : (processOne o s' e).queue.length < n := by
        simp only [queue_processOne]
        omega
      obtain ⟨new', h1, h2, h3, h4, h5, h6⟩ :=
        ih (processOne o s' e).queue.length hlt (processOne o s' e) rfl
      refine ⟨m :: new', ?_, ?_, ?_, h4, ?_, ?_⟩
      · rw [h1, hm2, hm]; simp
      · rw [h2, hob2, hob]; simp
      · rw [List.length_cons, h3, queue_processOne]; omega
      · rw [h5, processOne_processing, hp]
      · intro hi
        exact h6 (processOne_memInvariant o s' e (memInvariant_of_dequeue h hi))

/-- `process_queue` on an idle session: same guarantees, with the busy flag
back to `false` afterwards. -/
theorem process_queue_spec (o : Oracle) (s : Session) (hp : s.processing = false) :
    ∃ new : List Message,
      (process_queue o s).messages = s.messages ++ new
      ∧ (process_queue o s).outbox = s.outbox ++ new
      ∧ new.length = s.queue.length
      ∧ (process_queue o s).queue = []
      ∧ (process_queue o s).processing = false
      ∧ (memInvariant s → memInvariant (process_queue o s)) := by
  obtain ⟨new, h1, h2, h3, h4, h5, h6⟩ :=
    process_queue_loop_spec o { s with processing := true }
  have hpq : process_queue o s
      = { process_queue_loop o { s with processing := true } with processing := false } := by
    unfold process_queue
    rw [hp]
    simp
  rw [hpq]
  refine ⟨new, by simp [h1], by simp [h2], by simpa using h3,
    by simpa using h4, rfl, ?_⟩
  intro hi
  have hi1 : memInvariant { s with processing := true } := hi
  have h7 := h6 hi1
  unfold memInvariant at h7 ⊢
  simpa using h7

theorem process_queue_memInvariant (o : Oracle) (s : Session) (hi : memInvariant s) :
    memInvariant (process_queue o s) := by
  by_cases hp : s.processing
  · have hid : process_queue o s = s := by
      unfold process_queue
      rw [hp]
      simp
    rw [hid]
    exact hi
  · obtain ⟨-, -, -, -, -, -, h6⟩ :=
      process_queue_spec o s (by simpa using hp)
    exact h6 hi

/-! ### Concrete enqueue scenarios -/

/-- An enqueue request carrying only a type tag. -/
def rawOfType (t : String) : RawEvent :=
  { type := some t, userMessage := none, code := none, output := none, error := none }

/-- Enqueue SLM, then CODE_RUN, then USER_SPEECH into a fresh session without
draining in between. -/
def c1Session : Session :=
  enqueue_event (enqueue_event (enqueue_event freshSession (rawOfType "SLM"))
    (rawOfType "CODE_RUN")) (rawOfType "USER_SPEECH")

/-- Enqueue an unrecognized type, then SLM: the unknown type gets priority 0
and drains last. -/
def c1UnknownSession : Session :=
  enqueue_event (enqueue_event freshSession (rawOfType "WEIRD_TYPE")) (rawOfType "SLM")

end Innov8

namespace Innov8

/-- C1: draining a session queue consumes events in descending order of the
fixed priority table (USER_SPEECH=3, CODE_RUN=2, SLM=1, unrecognized types 0
last): the drain order is sorted by priority descending, preserves insertion
order within each priority class, and is a permutation of the queue; in
particular, enqueueing SLM, then CODE_RUN, then USER_SPEECH without draining
in between drains as USER_SPEECH, CODE_RUN, SLM, and an unrecognized type
drains after SLM. -/
theorem C1_drain_priority_order :
    (∀ s : Session,
        List.Pairwise (fun a b : Event => b.priority ≤ a.priority) (drainOrder s)
        ∧ (∀ p : Nat, (drainOrder s).filter (fun e => e.priority == p)
            = s.queue.filter (fun e => e.priority == p))
        ∧ List.Perm (drainOrder s) s.queue)
    ∧ (drainOrder c1Session).map Event.etype = ["USER_SPEECH", "CODE_RUN", "SLM"]
    ∧ (drainOrder c1UnknownSession).map Event.etype = ["SLM", "WEIRD_TYPE"] := by
  refine ⟨fun s => ⟨?_, fun p => ?_, ?_⟩, ?_, ?_⟩
  · rw [drainOrder_eq_sortDesc]; exact pairwise_sortDesc _
  · rw [drainOrder_eq_sortDesc]; exact filter_sortDesc _ p
  · rw [drainOrder_eq_sortDesc]; exact perm_sortDesc _
  · rw [drainOrder_eq_sortDesc]; rfl
  · rw [drainOrder_eq_sortDesc]; rfl

/-! ### Extractor helpers -/

theorem extract_eq_none_of_no_marker {t : Str}
    (h : containsSub t snapshotMarker = false) :
    extract_memory_from_snapshot_section t = (none, none) := by
  have hf : pyFind t (str "### Interview Snapshot") = none := by
    unfold containsSub snapshotMarker at h
    cases hg : pyFind t (str "### Interview Snapshot") with
    | none => rfl
    | some i => rw [hg] at h; simp at h
  unfold extract_memory_from_snapshot_section
  by_cases ht : t = []
  · simp [ht]
  · simp [ht, hf]

theorem update_eq_self_of_no_marker (s : Session) {t : Str}
    (h : containsSub t snapshotMarker = false) :
    update_memory_from_snapshot s t = s := by
  unfold update_memory_from_snapshot
  rw [extract_eq_none_of_no_marker h]

/-! ### Claim theorems -/

/-- C2: for a session whose helpLevel is in [0,3] and struggleScore is in
[0,100], every update — the memory-update step itself on any response text,
a full drain by `_process_queue` under any LLM oracle, and the `/chat`
endpoint's cycle — keeps helpLevel in [0,3] and struggleScore in [0,100]
(each parsed value is clamped with max/min before being stored). -/
theorem C2_memory_bounds (s : Session) (h : memInvariant s) :
    (∀ t : Str, memInvariant (update_memory_from_snapshot s t))
    ∧ (∀ o : Oracle, memInvariant (process_queue o s))
    ∧ (∀ (oT : Session → Str → Str) (u : Str), memInvariant (chat_step oT s u)) := by
  refine ⟨fun t => memInvariant_update s t h,
    fun o => process_queue_memInvariant o s h, ?_⟩
  intro oT u
  unfold chat_step
  have h1 : memInvariant
      { s with messages := s.messages ++ [{ isAssistant := false, content := u }] } := h
  have h2 := memInvariant_update _
    (oT { s with messages := s.messages ++ [{ isAssistant := false, content := u }] } u) h1
  unfold memInvariant at h2 ⊢
  simpa using h2

/-- Witness for C2: the bounds hold after updating a fresh session with an
out-of-range struggle score and after a fully failing drain. -/
theorem C2_memory_bounds_witness :
    memInvariant (update_memory_from_snapshot freshSession
      (str "### Interview Snapshot\n- Struggle score: 999999"))
    ∧ memInvariant (process_queue oracleFail c1Session) :=
  ⟨(C2_memory_bounds freshSession (by decide)).1 _,
   (C2_memory_bounds c1Session (by decide)).2.1 oracleFail⟩

/-- C3: the claim is FALSE on the code, which is the slip (the spec's fail-safe
intent is explicit): with the diff-match-patch library available,
`_apply_patch` on a syntactically invalid patch text raises
`ValueError("Invalid patch string: garbage")` to its caller — `patch_fromText`
is not wrapped in any try/except — instead of returning `previousCode`; only
the dmp-unavailable fallback returns `previousCode` unchanged. -/
theorem C3_apply_patch_raises_on_invalid_patch :
    ∀ patchApply : List Str → Str → Str × List Bool,
      apply_patch true patchApply (str "hello") (str "garbage")
          = .error (str "Invalid patch string: garbage")
      ∧ apply_patch false patchApply (str "hello") (str "garbage") = .ok (str "hello") :=
  fun _ => ⟨rfl, rfl⟩

/-- C4 counterexample: the claim's final case is false — a help-tier label
containing none of the keywords maps to the integer 0, and the extractor then
reports a PRESENT help level `some 0`, not an absent value. -/
theorem C4_unrecognized_label_maps_to_zero :
    map_help_label_to_level (str "banana") = 0
    ∧ extract_memory_from_snapshot_section
        (str "### Interview Snapshot\n- Help tier: banana") = (some 0, none) := by
  constructor
  · decide
  · decide

/-- C4 (amended): the keyword precedence is as claimed — "direction" → 3,
else "guide" → 2, else "nudge" → 1 — but every remaining label (whether it
contains "self"/"sufficient"/"no hint" or nothing recognizable, including the
empty label) maps to 0; the function never yields an absent value. -/
theorem C4_help_label_precedence (label : Str) :
    (containsSub (pyLower (pyStrip label)) (str "direction") = true →
        map_help_label_to_level label = 3)
    ∧ (containsSub (pyLower (pyStrip label)) (str "direction") = false →
        containsSub (pyLower (pyStrip label)) (str "guide") = true →
        map_help_label_to_level label = 2)
    ∧ (containsSub (pyLower (pyStrip label)) (str "direction") = false →
        containsSub (pyLower (pyStrip label)) (str "guide") = false →
        containsSub (pyLower (pyStrip label)) (str "nudge") = true →
        map_help_label_to_level label = 1)
    ∧ (containsSub (pyLower (pyStrip label)) (str "direction") = false →
        containsSub (pyLower (pyStrip label)) (str "guide") = false →
        containsSub (pyLower (pyStrip label)) (str "nudge") = false →
        map_help_label_to_level label = 0) := by
  refine ⟨fun h1 => ?_, fun h1 h2 => ?_, fun h1 h2 h3 => ?_, fun h1 h2 h3 => ?_⟩
  · have hn : ¬ pyLower (pyStrip label) = [] := by
      intro he; rw [he] at h1; exact absurd h1 (by decide)
    simp [map_help_label_to_level, hn, h1]
  · have hn : ¬ pyLower (pyStrip label) = [] := by
      intro he; rw [he] at h2; exact absurd h2 (by decide)
    simp [map_help_label_to_level, hn, h1, h2]
  · have hn : ¬ pyLower (pyStrip label) = [] := by
      intro he; rw [he] at h3; exact absurd h3 (by decide)
    simp [map_help_label_to_level, hn, h1, h2, h3]
  · by_cases hn : pyLower (pyStrip label) = []
    · simp [map_help_label_to_level, hn]
    · simp [map_help_label_to_level, hn, h1, h2, h3]

/-- Witness for C4 (amended), one label per precedence branch; the "guided
nudge" label shows guide beating nudge. -/
theorem C4_help_label_precedence_witness :
    map_help_label_to_level (str "More Direction please") = 3
    ∧ map_help_label_to_level (str "a guided nudge") = 2
    ∧ map_help_label_to_level (str "tiny nudge") = 1
    ∧ map_help_label_to_level (str "banana split") = 0 :=
  ⟨(C4_help_label_precedence _).1 (by decide),
   (C4_help_label_precedence _).2.1 (by decide) (by decide),
   (C4_help_label_precedence _).2.2.1 (by decide) (by decide) (by decide),
   (C4_help_label_precedence _).2.2.2 (by decide) (by decide) (by decide)⟩

/-- C5: helpLevel and struggleScore change only on a successful parse — a text
without the snapshot marker leaves the whole session unchanged, an absent
extractor output leaves the corresponding field exactly unchanged, and a
malformed help-tier line (no colon) does not prevent struggle-score recovery
from another line of the same section. -/
theorem C5_update_only_on_success :
    (∀ (s : Session) (t : Str), containsSub t snapshotMarker = false →
        update_memory_from_snapshot s t = s)
    ∧ (∀ (s : Session) (t : Str),
        ((extract_memory_from_snapshot_section t).1 = none →
          (update_memory_from_snapshot s t).help_level = s.help_level)
        ∧ ((extract_memory_from_snapshot_section t).2 = none →
          (update_memory_from_snapshot s t).struggle_score = s.struggle_score))
    ∧ extract_memory_from_snapshot_section malformedHelpText = (none, some 57)
    ∧ (∀ s : Session,
        (update_memory_from_snapshot s malformedHelpText).help_level = s.help_level
        ∧ (update_memory_from_snapshot s malformedHelpText).struggle_score = 57) := by
  refine ⟨fun s t h => update_eq_self_of_no_marker s h,
    fun s t => ⟨?_, ?_⟩, by decide, fun s => ⟨?_, ?_⟩⟩
  · intro h1
    rw [update_memory_help_eq, h1]
  · intro h2
    rw [update_memory_struggle_eq, h2]
  · rw [update_memory_help_eq,
      show (extract_memory_from_snapshot_section malformedHelpText).1 = none from by decide]
  · rw [update_memory_struggle_eq,
      show (extract_memory_from_snapshot_section malformedHelpText).2 = some 57 from by decide]
    dsimp only
    decide

/-- Witness for C5: a marker-free text leaves a fresh session untouched, and
the malformed-help section recovers only the struggle score. -/
theorem C5_update_only_on_success_witness :
    update_memory_from_snapshot freshSession (str "plain chat text") = freshSession
    ∧ (update_memory_from_snapshot freshSession malformedHelpText).help_level
        = freshSession.help_level
    ∧ (update_memory_from_snapshot freshSession malformedHelpText).struggle_score = 57 :=
  ⟨C5_update_only_on_success.1 freshSession _ (by decide),
   (C5_update_only_on_success.2.2.2 freshSession).1,
   (C5_update_only_on_success.2.2.2 freshSession).2⟩

/-- C6 counterexample: the claim is false for "any text containing" the quoted
section — `c6DoubleMarker` contains `c6Block` as a substring, yet extraction
reads the EARLIER snapshot section (the first marker occurrence) and returns
(some 1, some 3), not (some 2, some 57). -/
theorem C6_earlier_marker_counterexample :
    containsSub c6DoubleMarker c6Block = true
    ∧ extract_memory_from_snapshot_section c6DoubleMarker = (some 1, some 3)
    ∧ extract_memory_from_snapshot_section c6DoubleMarker ≠ (some 2, some 57) := by
  refine ⟨by decide, by decide, by decide⟩

/-- C6 (amended): the extractor returns helpLevel=2, struggleScore=57 on any
text in which the quoted section follows the FIRST occurrence of the
`### Interview Snapshot` marker — in particular on the section text itself,
with or without marker-free surrounding text — and returns both outputs
absent on any text not containing the marker. -/
theorem C6_extractor_vector :
    extract_memory_from_snapshot_section c6Block = (some 2, some 57)
    ∧ extract_memory_from_snapshot_section
        (str "Intro text.\n" ++ c6Block ++ str "\nMore notes afterwards.")
        = (some 2, some 57)
    ∧ (∀ t : Str, containsSub t snapshotMarker = false →
        extract_memory_from_snapshot_section t = (none, none)) :=
  ⟨by decide, by decide, fun _ h => extract_eq_none_of_no_marker h⟩

/-- Witness for C6 (amended): a marker-free text yields both outputs absent. -/
theorem C6_extractor_vector_witness :
    extract_memory_from_snapshot_section (str "Thanks, that makes sense!")
      = (none, none) :=
  C6_extractor_vector.2.2 _ (by decide)

/-- C7: polling swaps the session's outbox for an empty list and returns the
previous contents in order — an empty outbox yields `([], count=0)`, a poll
right after a drain returns exactly the messages that drain appended (with
`count` equal to the number of drained events), and an immediate second poll
returns empty. -/
theorem C7_poll_swaps_outbox :
    (∀ s : Session,
        chat_events_poll s = ((s.outbox.length, s.outbox), { s with outbox := [] }))
    ∧ (∀ s : Session, s.outbox = [] → (chat_events_poll s).1 = (0, []))
    ∧ (∀ s : Session, (chat_events_poll (chat_events_poll s).2).1 = (0, []))
    ∧ (∀ (o : Oracle) (s : Session), s.processing = false → s.outbox = [] →
        (chat_events_poll (process_queue o s)).1.2
            = (process_queue o s).messages.drop s.messages.length
        ∧ (chat_events_poll (process_queue o s)).1.1 = s.queue.length
        ∧ (chat_events_poll (chat_events_poll (process_queue o s)).2).1 = (0, [])) := by
  refine ⟨fun s => rfl, fun s h => by simp [chat_events_poll, h], fun s => rfl, ?_⟩
  intro o s hp hob
  obtain ⟨new, h1, h2, h3, h4, h5, h6⟩ := process_queue_spec o s hp
  rw [hob] at h2
  refine ⟨?_, ?_, rfl⟩
  · rw [show (chat_events_poll (process_queue o s)).1.2 = (process_queue o s).outbox
        from rfl, h2, h1]
    simp
  · rw [show (chat_events_poll (process_queue o s)).1.1
        = (process_queue o s).outbox.length from rfl, h2]
    simpa using h3

/-- Witness for C7: concrete polls on a fresh session and right after a drain
of the three-event demo session. -/
theorem C7_poll_swaps_outbox_witness :
    (chat_events_poll freshSession).1 = (0, [])
    ∧ ((chat_events_poll (process_queue oracle0 c1Session)).1.2
        = (process_queue oracle0 c1Session).messages.drop c1Session.messages.length
      ∧ (chat_events_poll (process_queue oracle0 c1Session)).1.1 = c1Session.queue.length
      ∧ (chat_events_poll (chat_events_poll (process_queue oracle0 c1Session)).2).1
          = (0, [])) :=
  ⟨C7_poll_swaps_outbox.2.1 freshSession rfl,
   C7_poll_swaps_outbox.2.2.2 oracle0 c1Session rfl rfl⟩

/-- C8: an LLM failure while processing one event is caught and converted into
a synthetic assistant message embedding the exception text, appended to both
`messages` and `outbox`; and a drain started on an idle session always empties
the queue and appends exactly one message per queued event, under every oracle
— including ones that fail on some or all events — so a single failure never
aborts the drain. -/
theorem C8_llm_failure_isolated :
    (∀ (o : Oracle) (s : Session) (e : Event) (exc : Str), o s e = .error exc →
        (processOne o s e).messages = s.messages
            ++ [{ isAssistant := true, content := internalErrorText e.etype exc }]
        ∧ (processOne o s e).outbox = s.outbox
            ++ [{ isAssistant := true, content := internalErrorText e.etype exc }])
    ∧ (∀ (o : Oracle) (s : Session), s.processing = false →
        (process_queue o s).queue = []
        ∧ (process_queue o s).messages.length = s.messages.length + s.queue.length
        ∧ (process_queue o s).outbox.length = s.outbox.length + s.queue.length) := by
  constructor
  · intro o s e exc h
    constructor <;> (unfold processOne append_assistant_message; rw [h]; simp)
  · intro o s hp
    obtain ⟨new, h1, h2, h3, h4, h5, h6⟩ := process_queue_spec o s hp
    refine ⟨h4, ?_, ?_⟩ <;> simp [h1, h2, h3]

/-- Witness for C8: the always-failing oracle on a single event and on the
three-event demo session. -/
theorem C8_llm_failure_isolated_witness :
    ((processOne oracleFail freshSession ev0).messages = freshSession.messages
        ++ [{ isAssistant := true, content := internalErrorText ev0.etype (str "boom") }]
      ∧ (processOne oracleFail freshSession ev0).outbox = freshSession.outbox
        ++ [{ isAssistant := true, content := internalErrorText ev0.etype (str "boom") }])
    ∧ ((process_queue oracleFail c1Session).queue = []
      ∧ (process_queue oracleFail c1Session).messages.length
          = c1Session.messages.length + c1Session.queue.length
      ∧ (process_queue oracleFail c1Session).outbox.length
          = c1Session.outbox.length + c1Session.queue.length) :=
  ⟨C8_llm_failure_isolated.1 oracleFail freshSession ev0 (str "boom") rfl,
   C8_llm_failure_isolated.2 oracleFail c1Session rfl⟩

/-- C10: an enqueue request whose type field is missing (or null) or the empty
string is normalized to type SLM with priority 1; a present, non-empty type
outside the priority table gets the lowest priority 0 and keeps its type. -/
theorem C10_enqueue_type_default :
    (∀ (s : Session) (ev : RawEvent), ev.type = none ∨ ev.type = some "" →
        (enqueue_event s ev).queue = s.queue
          ++ [{ priority := 1, etype := "SLM", userMessage := ev.userMessage,
                code := ev.code, runOutput := ev.output, runError := ev.error }])
    ∧ (∀ (s : Session) (ev : RawEvent) (t : String), ev.type = some t → t ≠ "" →
        t ≠ "USER_SPEECH" → t ≠ "CODE_RUN" → t ≠ "SLM" →
        (enqueue_event s ev).queue = s.queue
          ++ [{ priority := 0, etype := t, userMessage := ev.userMessage,
                code := ev.code, runOutput := ev.output, runError := ev.error }]) := by
  constructor
  · rintro s ev (h | h) <;> simp [enqueue_event, h, PRIORITY_get]
  · intro s ev t h ht h1 h2 h3
    simp [enqueue_event, h, ht, PRIORITY_get, h1, h2, h3]

/-- Witness for C10: a request without a type becomes an SLM event with
priority 1; an unknown type keeps its name with priority 0. -/
theorem C10_enqueue_type_default_witness :
    (enqueue_event freshSession noTypeReq).queue = freshSession.queue
      ++ [{ priority := 1, etype := "SLM", userMessage := noTypeReq.userMessage,
            code := noTypeReq.code, runOutput := noTypeReq.output,
            runError := noTypeReq.error }]
    ∧ (enqueue_event freshSession (rawOfType "WEIRD_TYPE")).queue = freshSession.queue
      ++ [{ priority := 0, etype := "WEIRD_TYPE",
            userMessage := (rawOfType "WEIRD_TYPE").userMessage,
            code := (rawOfType "WEIRD_TYPE").code,
            runOutput := (rawOfType "WEIRD_TYPE").output,
            runError := (rawOfType "WEIRD_TYPE").error }] :=
  ⟨C10_enqueue_type_default.1 freshSession noTypeReq (Or.inl rfl),
   C10_enqueue_type_default.2 freshSession (rawOfType "WEIRD_TYPE") "WEIRD_TYPE" rfl
     (by decide) (by decide) (by decide) (by decide)⟩

end Innov8
